import Mathlib

/-!
Shallow embedding of the classDeck classroom data model
(`classDeck/classroom/models.py`) and of the operations the specification
describes: the `Student.get_unanswered_questions` query, `Channel.save`
slug recomputation, cascading deletes, the `MonthlySchedule.month`
uniqueness constraint and the `get_current_year` default.

Rows are Lean structures, one per Django model, with the source's field
names; a foreign key is the referenced row's primary key (`Nat`), a
nullable field an `Option`.  The store is a `DB` structure of row lists.
Django's `on_delete=CASCADE` is embedded as filtering out the child rows
of a deleted parent.
-/

namespace ClassDeck

/-- Row of `Quiz`: `owner`/`subject` are foreign keys, `duration` a nullable
`TimeField` (modelled as seconds since midnight). -/
structure QuizRow where
  pk : Nat
  ownerId : Nat
  name : String
  subjectId : Nat
  duration : Option Nat
deriving Repr, DecidableEq

/-- Row of `Question`: `quiz` foreign key and the question `text`. -/
structure QuestionRow where
  pk : Nat
  quizId : Nat
  text : String
deriving Repr, DecidableEq

/-- Row of `Answer`: `question` foreign key, `text`, `is_correct` flag. -/
structure AnswerRow where
  pk : Nat
  questionId : Nat
  text : String
  is_correct : Bool
deriving Repr, DecidableEq

/-- Row of `StudentAnswer`: `student` foreign key and the nullable
`answer` foreign key (`null=True`, `on_delete=CASCADE`). -/
structure StudentAnswerRow where
  pk : Nat
  studentId : Nat
  answerId : Option Nat
deriving Repr, DecidableEq

/-- Row of `TakenQuiz`: `student` and `quiz` foreign keys, `score`
(`FloatField`) and the `auto_now_add` timestamp `date`. -/
structure TakenQuizRow where
  pk : Nat
  studentId : Nat
  quizId : Nat
  score : Float
  date : Nat
deriving Repr

/-- Row of `Assignment`: `owner`/`subject` foreign keys, nullable file
path, timestamps and note. -/
structure AssignmentRow where
  pk : Nat
  ownerId : Nat
  name : String
  subjectId : Nat
  file : Option String
  uploaded_on : Option Nat
  note : Option String
  last_date : Option Nat
deriving Repr, DecidableEq

/-- Row of `AssignmentSubmission`: the `assignment` foreign key is
nullable but declared `on_delete=CASCADE` in the source. -/
structure AssignmentSubmissionRow where
  pk : Nat
  assignmentId : Option Nat
  studentId : Nat
  file : Option String
  score : Option Int
  date : Option Nat
  late_submission : Bool
  remarks : Option String
deriving Repr, DecidableEq

/-- Row of `Channel`: `slug` is recomputed from `name` on every save. -/
structure ChannelRow where
  pk : Nat
  name : String
  admin : String
  slug : String
  description : String
deriving Repr, DecidableEq

/-- Row of `MonthlySchedule`: `month` carries `unique=True`, `year`
defaults to `get_current_year`, `user` is a foreign key. -/
structure MonthlyScheduleRow where
  pk : Nat
  month : Int
  year : Int
  days : Int
  userId : Nat
deriving Repr, DecidableEq

/-- The relational store: one list of rows per model the claims touch.
Primary keys are unique in a real database; theorems that depend on that
carry it as an explicit `Nodup` hypothesis. -/
structure DB where
  quizzes : List QuizRow
  questions : List QuestionRow
  answers : List AnswerRow
  studentAnswers : List StudentAnswerRow
  takenQuizzes : List TakenQuizRow
  assignments : List AssignmentRow
  assignmentSubmissions : List AssignmentSubmissionRow
  channels : List ChannelRow
  monthlySchedules : List MonthlyScheduleRow
deriving Repr

/-! ### Slugification

`django.utils.text.slugify` with its default `allow_unicode=False`:
NFKD-normalise, encode to ASCII ignoring errors, lower-case, drop every
character that is not a word character, whitespace or a hyphen, collapse
runs of hyphens/whitespace to a single hyphen, and strip leading and
trailing hyphens and underscores.  NFKD normalisation is modelled as the
identity, which is exact for ASCII input (every input the claims use). -/

/-- Character class of the regex `\w` over ASCII text: letters, digits and
the underscore. -/
def isWordChar (c : Char) : Bool :=
  c.isAlphanum || c == '_'

/-- Character class of the regex `\s` over ASCII text. -/
def isSpaceChar (c : Char) : Bool :=
  c == ' ' || c == '\t' || c == '\n' || c == '\r' || c == '\x0b' || c == '\x0c'

/-- Replacement of every maximal run matching `[-\s]+` by a single
hyphen; the boolean records whether the previous character was part of
such a run. -/
def collapseSeps : Bool → List Char → List Char
  | _, [] => []
  | prevSep, c :: rest =>
    if isSpaceChar c || c == '-' then
      if prevSep then collapseSeps true rest
      else '-' :: collapseSeps true rest
    else c :: collapseSeps false rest

/-- Test for the characters `.strip("-_")` removes. -/
def isStripChar (c : Char) : Bool :=
  c == '-' || c == '_'

/-- Python's `str.strip("-_")`: drop leading and trailing hyphens and
underscores. -/
def stripSeps (l : List Char) : List Char :=
  ((l.dropWhile isStripChar).reverse.dropWhile isStripChar).reverse

/-- Embedding of `django.utils.text.slugify(value)` (default
`allow_unicode=False`); NFKD is modelled as the identity, so the
ASCII-encode-with-ignore step keeps exactly the ASCII characters. -/
def slugify (value : String) : String :=
  let ascii := value.toList.filter (fun c => c.toNat < 128)
  let cleaned := (ascii.map Char.toLower).filter
    (fun c => isWordChar c || isSpaceChar c || c == '-')
  String.mk (stripSeps (collapseSeps false cleaned))

/-! ### Operations -/

/-- Contribution of one `StudentAnswer` row to the subquery
`filter(answer__question__quiz=quiz).values_list('answer__question__pk')`:
the pk of the answered question when the row's answer exists, belongs to
a question of `quizId`, else nothing.  Foreign-key joins follow the pk. -/
def answerContribution (db : DB) (quizId : Nat) (sa : StudentAnswerRow) : Option Nat :=
  sa.answerId.bind fun aid =>
    (db.answers.find? (fun a => a.pk == aid)).bind fun a =>
      (db.questions.find? (fun q => q.pk == a.questionId)).bind fun q =>
        if q.quizId == quizId then some q.pk else none

/-- The queryset `student.quiz_answers.filter(answer__question__quiz=quiz)
.values_list('answer__question__pk', flat=True)`. -/
def answeredQuestionPks (db : DB) (studentId quizId : Nat) : List Nat :=
  (db.studentAnswers.filter (fun sa => sa.studentId == studentId)).filterMap
    (answerContribution db quizId)

/-- Insertion of a question into a list sorted by `text`, for
`order_by('text')`. -/
def insertByText (q : QuestionRow) : List QuestionRow → List QuestionRow
  | [] => [q]
  | r :: rs => if q.text ≤ r.text then q :: r :: rs else r :: insertByText q rs

/-- Insertion sort by question `text`, the embedding of
`order_by('text')`. -/
def sortByText : List QuestionRow → List QuestionRow
  | [] => []
  | q :: qs => insertByText q (sortByText qs)

/-- Embedding of `Student.get_unanswered_questions(self, quiz)`: the
quiz's questions whose pk is not among the student's answered question
pks, ordered by text. -/
def get_unanswered_questions (db : DB) (studentId quizId : Nat) : List QuestionRow :=
  let answered_questions := answeredQuestionPks db studentId quizId
  sortByText ((db.questions.filter (fun q => q.quizId == quizId)).filter
    (fun q => !(answered_questions.contains q.pk)))

/-- Embedding of `Channel.save`: `self.slug = slugify(self.name)` before
the row is persisted. -/
def ChannelRow.save (c : ChannelRow) : ChannelRow :=
  { c with slug := slugify c.name }

/-- Store-level save of a Channel: the row as persisted replaces any row
with the same pk (uniqueness of `name`/`slug` across distinct channels is
not exercised by the claims and not modelled). -/
def channelSave (db : DB) (c : ChannelRow) : DB :=
  { db with channels := db.channels.filter (fun r => r.pk != c.pk) ++ [c.save] }

/-- Cascade delete of a Quiz: Django's collector removes its `Question`
rows (`on_delete=CASCADE`), those questions' `Answer` rows, the
`StudentAnswer` rows referencing those answers, and the `TakenQuiz` rows
referencing the quiz. -/
def deleteQuiz (db : DB) (quizPk : Nat) : DB :=
  let deadQuestionPks := (db.questions.filter (fun q => q.quizId == quizPk)).map
    (fun q => q.pk)
  let deadAnswerPks := (db.answers.filter
    (fun a => deadQuestionPks.contains a.questionId)).map (fun a => a.pk)
  { db with
    quizzes := db.quizzes.filter (fun z => z.pk != quizPk),
    questions := db.questions.filter (fun q => q.quizId != quizPk),
    answers := db.answers.filter (fun a => !(deadQuestionPks.contains a.questionId)),
    studentAnswers := db.studentAnswers.filter (fun sa =>
      match sa.answerId with
      | none => true
      | some aid => !(deadAnswerPks.contains aid)),
    takenQuizzes := db.takenQuizzes.filter (fun t => t.quizId != quizPk) }

/-- Cascade delete of an Answer: `StudentAnswer.answer` is nullable but
declared `on_delete=CASCADE`, so the referencing `StudentAnswer` rows are
removed, not nulled. -/
def deleteAnswer (db : DB) (answerPk : Nat) : DB :=
  { db with
    answers := db.answers.filter (fun a => a.pk != answerPk),
    studentAnswers := db.studentAnswers.filter
      (fun sa => sa.answerId != some answerPk) }

/-- Cascade delete of an Assignment: `AssignmentSubmission.assignment` is
nullable but declared `on_delete=CASCADE`, so the referencing submission
rows are removed together with the assignment. -/
def deleteAssignment (db : DB) (assignmentPk : Nat) : DB :=
  { db with
    assignments := db.assignments.filter (fun a => a.pk != assignmentPk),
    assignmentSubmissions := db.assignmentSubmissions.filter
      (fun s => s.assignmentId != some assignmentPk) }

/-- Outcome of a store-level insert that can hit a uniqueness
constraint. -/
inductive DbError where
  | uniqueViolation
deriving Repr, DecidableEq

/-- Insert of a `MonthlySchedule` row under the `unique=True` constraint
on `month`: rejected when any stored schedule (any user, any year)
already has the same month, otherwise appended. -/
def insertMonthlySchedule (db : DB) (r : MonthlyScheduleRow) :
    Except DbError DB :=
  if db.monthlySchedules.any (fun r0 => r0.month == r.month) then
    Except.error DbError.uniqueViolation
  else
    Except.ok { db with monthlySchedules := db.monthlySchedules ++ [r] }

/-- Injectable time source standing for `datetime.now()`. -/
structure DateTime where
  year : Int
  month : Int
  day : Int
deriving Repr, DecidableEq

/-- Embedding of `get_current_year()` with the wall clock injected. -/
def get_current_year (now : DateTime) : Int :=
  now.year

/-- Creation of a `MonthlySchedule` instance: Django evaluates the
callable default `get_current_year` at instance creation when no explicit
`year` is supplied. -/
def mkMonthlySchedule (now : DateTime) (pk : Nat) (month : Int)
    (days : Int) (userId : Nat) (yearArg : Option Int) : MonthlyScheduleRow :=
  { pk := pk, month := month, year := yearArg.getD (get_current_year now),
    days := days, userId := userId }

/-- The student `studentId` has at least one `StudentAnswer` pointing at
one of question `qPk`'s answers. -/
def hasAnswered (db : DB) (studentId qPk : Nat) : Prop :=
  ∃ sa ∈ db.studentAnswers, sa.studentId = studentId ∧
    ∃ aid, sa.answerId = some aid ∧
      ∃ a ∈ db.answers, a.pk = aid ∧ a.questionId = qPk

/-! ### Concrete stores used by witnesses and counterexamples -/

/-- The empty store. -/
def emptyDB : DB :=
  { quizzes := [], questions := [], answers := [], studentAnswers := [],
    takenQuizzes := [], assignments := [], assignmentSubmissions := [],
    channels := [], monthlySchedules := [] }

/-- Store with quiz 1 holding questions "2+2=?" (pk 1, answers pk 1
correct and pk 2 wrong) and "Capital of France?" (pk 2); student 7 has
answered question 1 by picking the wrong answer pk 2. -/
def exDb : DB :=
  { emptyDB with
    quizzes := [{ pk := 1, ownerId := 1, name := "Maths", subjectId := 1,
                  duration := none }],
    questions := [{ pk := 1, quizId := 1, text := "2+2=?" },
                  { pk := 2, quizId := 1, text := "Capital of France?" }],
    answers := [{ pk := 1, questionId := 1, text := "4", is_correct := true },
                { pk := 2, questionId := 1, text := "5", is_correct := false }],
    studentAnswers := [{ pk := 1, studentId := 7, answerId := some 2 }] }

/-- Store with one assignment (pk 1) and one submission (pk 1)
referencing it. -/
def exSubDb : DB :=
  { emptyDB with
    assignments := [{ pk := 1, ownerId := 1, name := "HW1", subjectId := 1,
                      file := none, uploaded_on := none, note := none,
                      last_date := none }],
    assignmentSubmissions := [{ pk := 1, assignmentId := some 1,
                                studentId := 7, file := none, score := none,
                                date := none, late_submission := false,
                                remarks := none }] }

/-- Channel named "Math Help!" before any save. -/
def exChannel : ChannelRow :=
  { pk := 1, name := "Math Help!", admin := "teacher", slug := "",
    description := "" }

/-- Monthly schedule for March stored first (user 1, year 2026). -/
def exSchedMarchA : MonthlyScheduleRow :=
  { pk := 1, month := 3, year := 2026, days := 31, userId := 1 }

/-- Second monthly schedule for March (a different user and year). -/
def exSchedMarchB : MonthlyScheduleRow :=
  { pk := 2, month := 3, year := 2027, days := 31, userId := 2 }

/-! ### Helper lemmas -/

/-- With primary keys `Nodup`, looking a stored row up by its own pk finds
exactly that row. -/
theorem find?_beq_pk {α : Type} (pkf : α → Nat) (l : List α) (x : α)
    (hnd : (l.map pkf).Nodup) (hx : x ∈ l) :
    l.find? (fun y => pkf y == pkf x) = some x := by
  induction l with
  | nil => cases hx
  | cons y t ih =>
    rw [List.map_cons, List.nodup_cons] at hnd
    rcases List.mem_cons.mp hx with rfl | hxt
    · simp [List.find?_cons]
    · have hne : (pkf y == pkf x) = false := by
        by_contra hcon
        have : pkf y = pkf x := by
          have := Bool.not_eq_false _ |>.mp hcon
          exact beq_iff_eq.mp this
        exact hnd.1 (this ▸ List.mem_map_of_mem pkf hxt)
      rw [List.find?_cons, hne]
      exact ih hnd.2 hxt

/-- Membership in `insertByText`. -/
theorem mem_insertByText {x q : QuestionRow} {l : List QuestionRow} :
    x ∈ insertByText q l ↔ x = q ∨ x ∈ l := by
  induction l with
  | nil => simp [insertByText]
  | cons r rs ih =>
    by_cases h : q.text ≤ r.text
    · simp [insertByText, h]
    · simp only [insertByText, if_neg h, List.mem_cons, ih]
      tauto

/-- Membership in `sortByText`. -/
theorem mem_sortByText {x : QuestionRow} {l : List QuestionRow} :
    x ∈ sortByText l ↔ x ∈ l := by
  induction l with
  | nil => simp [sortByText]
  | cons q qs ih => simp [sortByText, mem_insertByText, ih]

/-- Inserting into a text-sorted list keeps it text-sorted. -/
theorem sorted_insertByText {q : QuestionRow} {l : List QuestionRow}
    (h : List.Sorted (fun a b : QuestionRow => a.text ≤ b.text) l) :
    List.Sorted (fun a b : QuestionRow => a.text ≤ b.text) (insertByText q l) := by
  induction l with
  | nil => simp [insertByText]
  | cons r rs ih =>
    rw [List.sorted_cons] at h
    by_cases hle : q.text ≤ r.text
    · rw [insertByText, if_pos hle, List.sorted_cons]
      refine ⟨?_, List.sorted_cons.mpr h⟩
      intro b hb
      rcases List.mem_cons.mp hb with rfl | hbrs
      · exact hle
      · exact le_trans hle (h.1 b hbrs)
    · rw [insertByText, if_neg hle, List.sorted_cons]
      refine ⟨?_, ih h.2⟩
      intro b hb
      rcases mem_insertByText.mp hb with rfl | hbrs
      · exact le_of_not_le hle
      · exact h.1 b hbrs

/-- The insertion sort by question text produces a text-sorted list. -/
theorem sorted_sortByText (l : List QuestionRow) :
    List.Sorted (fun a b : QuestionRow => a.text ≤ b.text) (sortByText l) := by
  induction l with
  | nil => simp [sortByText]
  | cons q qs ih => exact sorted_insertByText ih

/-- Characterisation of membership in `get_unanswered_questions`. -/
theorem mem_get_unanswered {db : DB} {s qz : Nat} {q : QuestionRow} :
    q ∈ get_unanswered_questions db s qz ↔
      q ∈ db.questions ∧ q.quizId = qz ∧
        q.pk ∉ answeredQuestionPks db s qz := by
  simp [get_unanswered_questions, mem_sortByText, List.mem_filter, and_assoc]
  tauto

/-- Unfolding of one row's contribution to the answered-questions
subquery. -/
theorem answerContribution_eq_some {db : DB} {qz : Nat}
    {sa : StudentAnswerRow} {p : Nat} :
    answerContribution db qz sa = some p ↔
      ∃ aid, sa.answerId = some aid ∧
        ∃ a, db.answers.find? (fun x => x.pk == aid) = some a ∧
          ∃ q, db.questions.find? (fun x => x.pk == a.questionId) = some q ∧
            q.quizId = qz ∧ q.pk = p := by
  simp only [answerContribution, Option.bind_eq_some]
  constructor
  · rintro ⟨aid, h1, a, h2, q, h3, h4⟩
    refine ⟨aid, h1, a, h2, q, h3, ?_⟩
    by_cases hq : q.quizId == qz
    · rw [if_pos hq] at h4
      exact ⟨beq_iff_eq.mp hq, (Option.some_inj.mp h4)⟩
    · rw [if_neg hq] at h4
      cases h4
  · rintro ⟨aid, h1, a, h2, q, h3, h4, rfl⟩
    exact ⟨aid, h1, a, h2, q, h3, by rw [if_pos (beq_iff_eq.mpr h4)]⟩

/-- Characterisation of membership in `answeredQuestionPks`. -/
theorem mem_answeredQuestionPks {db : DB} {s qz p : Nat} :
    p ∈ answeredQuestionPks db s qz ↔
      ∃ sa ∈ db.studentAnswers, sa.studentId = s ∧
        answerContribution db qz sa = some p := by
  simp [answeredQuestionPks, List.mem_filterMap, List.mem_filter, and_assoc]

/-- An answered-question pk always comes from a genuine `StudentAnswer`
of the student pointing at one of that question's answers. -/
theorem hasAnswered_of_mem_answered {db : DB} {s qz p : Nat}
    (h : p ∈ answeredQuestionPks db s qz) : hasAnswered db s p := by
  rcases mem_answeredQuestionPks.mp h with ⟨sa, hsa, hsid, hc⟩
  rcases answerContribution_eq_some.mp hc with
    ⟨aid, haid, a, hfa, q, hfq, hqz, hqp⟩
  have h1 := List.find?_some hfa
  have h2 := List.find?_some hfq
  simp only [beq_iff_eq] at h1 h2
  exact ⟨sa, hsa, hsid, aid, haid, a, List.mem_of_find?_eq_some hfa, h1,
    by rw [← hqp, h2]⟩

/-- With unique primary keys, a question of the quiz that the student
has answered shows up in `answeredQuestionPks`. -/
theorem mem_answered_of_hasAnswered {db : DB} {s qz : Nat} {q : QuestionRow}
    (hq : (db.questions.map QuestionRow.pk).Nodup)
    (ha : (db.answers.map AnswerRow.pk).Nodup)
    (hmem : q ∈ db.questions) (hqz : q.quizId = qz)
    (h : hasAnswered db s q.pk) : q.pk ∈ answeredQuestionPks db s qz := by
  rcases h with ⟨sa, hsa, hsid, aid, haid, a, hamem, hapk, haq⟩
  refine mem_answeredQuestionPks.mpr ⟨sa, hsa, hsid, ?_⟩
  refine answerContribution_eq_some.mpr ⟨aid, haid, a, ?_, q, ?_, hqz, rfl⟩
  · rw [← hapk]
    exact find?_beq_pk AnswerRow.pk db.answers a ha hamem
  · rw [haq]
    exact find?_beq_pk QuestionRow.pk db.questions q hq hmem

/-- Changing only the `studentAnswers` list changes `answeredQuestionPks`
pointwise through the same per-row contribution. -/
theorem answeredQuestionPks_set (db : DB) (l : List StudentAnswerRow)
    (s qz : Nat) :
    answeredQuestionPks { db with studentAnswers := l } s qz
      = (l.filter (fun sa => sa.studentId == s)).filterMap
          (answerContribution db qz) := rfl

/-- Two stores with the same questions and the same answered-question
pks give the same unanswered-questions result. -/
theorem get_unanswered_congr (db1 db2 : DB) (s qz : Nat)
    (hq : db1.questions = db2.questions)
    (ha : answeredQuestionPks db1 s qz = answeredQuestionPks db2 s qz) :
    get_unanswered_questions db1 s qz = get_unanswered_questions db2 s qz := by
  simp only [get_unanswered_questions, hq, ha]

/-- Rows that a filter drops may be removed before a `filterMap` that
maps them to `none` anyway. -/
theorem filterMap_filter_of_none {α β : Type} (p : α → Bool)
    (f : α → Option β) (h : ∀ x, ¬ p x = true → f x = none) (l : List α) :
    (l.filter p).filterMap f = l.filterMap f := by
  induction l with
  | nil => rfl
  | cons r t ih =>
    by_cases hp : p r = true
    · rw [List.filter_cons_of_pos hp, List.filterMap_cons, List.filterMap_cons,
        ih]
    · rw [List.filter_cons_of_neg hp, List.filterMap_cons_none (h r hp), ih]

/-- Dropping the `StudentAnswer` rows whose answer reference is null
leaves the answered-question contributions unchanged: a null row
contributes nothing. -/
theorem filterMap_contrib_filter_isSome (db : DB) (qz s : Nat)
    (l : List StudentAnswerRow) :
    ((l.filter (fun r => r.answerId.isSome)).filter
        (fun sa => sa.studentId == s)).filterMap (answerContribution db qz)
      = (l.filter (fun sa => sa.studentId == s)).filterMap
          (answerContribution db qz) := by
  rw [List.filter_comm]
  refine filterMap_filter_of_none _ _ (fun x hx => ?_) _
  rcases hopt : x.answerId with _ | aid
  · simp [answerContribution, hopt]
  · exact absurd (by simp [hopt]) hx

/-! ### Claims -/

/-- Claim C1: for every Student and Quiz, `get_unanswered_questions`
returns a subset of the quiz's questions, and its complement within the
quiz's questions is exactly the set of questions for which the student
has at least one `StudentAnswer` pointing at one of that question's
answers, regardless of correctness; in particular, with no question of
the quiz answered it returns all of the quiz's questions, and with every
question answered at least once it returns the empty sequence. -/
theorem get_unanswered_questions_spec (db : DB) (s qz : Nat)
    (hq : (db.questions.map QuestionRow.pk).Nodup)
    (ha : (db.answers.map AnswerRow.pk).Nodup) :
    (∀ q ∈ get_unanswered_questions db s qz,
      q ∈ db.questions ∧ q.quizId = qz) ∧
    (∀ q ∈ db.questions, q.quizId = qz →
      (q ∉ get_unanswered_questions db s qz ↔ hasAnswered db s q.pk)) ∧
    ((∀ q ∈ db.questions, q.quizId = qz → ¬ hasAnswered db s q.pk) →
      ∀ q, q ∈ get_unanswered_questions db s qz ↔
        q ∈ db.questions ∧ q.quizId = qz) ∧
    ((∀ q ∈ db.questions, q.quizId = qz → hasAnswered db s q.pk) →
      get_unanswered_questions db s qz = []) := by
  have hsub : ∀ q ∈ get_unanswered_questions db s qz,
      q ∈ db.questions ∧ q.quizId = qz := by
    intro q hmem
    have h := mem_get_unanswered.mp hmem
    exact ⟨h.1, h.2.1⟩
  have hcompl : ∀ q ∈ db.questions, q.quizId = qz →
      (q ∉ get_unanswered_questions db s qz ↔ hasAnswered db s q.pk) := by
    intro q hmem hqz
    constructor
    · intro hnot
      by_contra hno
      exact hnot (mem_get_unanswered.mpr ⟨hmem, hqz, fun hin =>
        hno (hasAnswered_of_mem_answered hin)⟩)
    · intro hans hin
      exact (mem_get_unanswered.mp hin).2.2
        (mem_answered_of_hasAnswered hq ha hmem hqz hans)
  refine ⟨hsub, hcompl, ?_, ?_⟩
  · intro hnone q
    constructor
    · exact hsub q
    · rintro ⟨hmem, hqz⟩
      by_contra hnot
      exact hnone q hmem hqz ((hcompl q hmem hqz).mp hnot)
  · intro hall
    rw [List.eq_nil_iff_forall_not_mem]
    intro q hin
    rcases hsub q hin with ⟨hmem, hqz⟩
    exact (hcompl q hmem hqz).mpr (hall q hmem hqz) hin

/-- Witness for C1 at the concrete store `exDb`: student 7 answered
question 1 (with a wrong answer), so only "Capital of France?" is
returned, and question 1's exclusion is equivalent to it having been
answered. -/
theorem get_unanswered_questions_spec_witness :
    ((exDb.questions.map QuestionRow.pk).Nodup ∧
      (exDb.answers.map AnswerRow.pk).Nodup) ∧
    (get_unanswered_questions exDb 7 1).map QuestionRow.text
      = ["Capital of France?"] ∧
    ((⟨1, 1, "2+2=?"⟩ : QuestionRow) ∉ get_unanswered_questions exDb 7 1 ↔
      hasAnswered exDb 7 1) :=
  ⟨⟨by decide, by decide⟩, by decide,
    (get_unanswered_questions_spec exDb 7 1 (by decide) (by decide)).2.1
      ⟨1, 1, "2+2=?"⟩ (by decide) rfl⟩

/-- Claim C4: for every Student and Quiz, the sequence returned by
`get_unanswered_questions` is sorted by question text in ascending,
case-sensitive order. -/
theorem get_unanswered_questions_sorted (db : DB) (s qz : Nat) :
    List.Sorted (fun a b : QuestionRow => a.text ≤ b.text)
      (get_unanswered_questions db s qz) :=
  sorted_sortByText _

/-- Counterexample to claim C2: in the store `exSubDb` one submission
references assignment 1; the source declares
`AssignmentSubmission.assignment` with `on_delete=CASCADE`, so deleting
the assignment removes the submission row — it does not survive with a
null reference. -/
theorem assignment_delete_cascades_cex :
    exSubDb.assignmentSubmissions ≠ [] ∧
    (deleteAssignment exSubDb 1).assignmentSubmissions = [] :=
  ⟨by decide, by decide⟩

/-- Claim C2 (amended): deleting an Assignment DOES remove every
`AssignmentSubmission` row referencing it (the foreign key is nullable
but cascading); submission rows whose assignment reference is null or
points elsewhere survive unchanged. -/
theorem assignment_delete_cascade (db : DB) (apk : Nat) :
    (∀ sub ∈ (deleteAssignment db apk).assignmentSubmissions,
      sub.assignmentId ≠ some apk) ∧
    (∀ sub ∈ db.assignmentSubmissions, sub.assignmentId ≠ some apk →
      sub ∈ (deleteAssignment db apk).assignmentSubmissions) ∧
    (∀ a ∈ (deleteAssignment db apk).assignments, a.pk ≠ apk) := by
  refine ⟨?_, ?_, ?_⟩
  · intro x hx
    have h := (List.mem_filter.mp hx).2
    simpa using h
  · intro x hx hne
    exact List.mem_filter.mpr ⟨hx, by simpa using hne⟩
  · intro x hx
    have h := (List.mem_filter.mp hx).2
    simpa using h

/-- Counterexample to claim C3: saving the channel named "Math Help!"
twice keeps slug "math-help", but renaming it to "Math Help?" does not
change the slug on the next save — `slugify` strips '!' and '?' alike,
so the slug stays "math-help". -/
theorem channel_rename_slug_unchanged_cex :
    exChannel.save.slug = "math-help" ∧
    exChannel.save.save.slug = "math-help" ∧
    ({ exChannel.save with name := "Math Help?" }).save.slug
      = exChannel.save.slug :=
  ⟨by decide, by decide, by decide⟩

/-- Claim C3 (amended): saving a Channel named "Math Help!" twice
without changing the name yields the same slug both times, and renaming
the channel to "Math Help?" leaves the slug unchanged on the next save
(both names slugify to "math-help"). -/
theorem channel_slug_rename_amended (c : ChannelRow) :
    c.save.save.slug = c.save.slug ∧
    (c.name = "Math Help!" →
      ({ c.save with name := "Math Help?" }).save.slug = c.save.slug) := by
  constructor
  · rfl
  · intro h
    show slugify "Math Help?" = slugify c.name
    rw [h]
    decide

/-- Claim C5: on every create-or-update save of a Channel the persisted
row's slug equals the slugification of its current name; supplying an
explicit slug before the save has no effect on the persisted store, and
rows with a different pk are untouched. -/
theorem channel_slug_invariant (db : DB) (c : ChannelRow) (s : String) :
    channelSave db { c with slug := s } = channelSave db c ∧
    (∀ r ∈ (channelSave db c).channels, r.pk = c.pk →
      r = { c with slug := slugify c.name }) ∧
    (∀ r ∈ (channelSave db c).channels, r.pk ≠ c.pk → r ∈ db.channels) := by
  refine ⟨rfl, ?_, ?_⟩
  · intro r hr hpk
    rcases List.mem_append.mp hr with hl | hrr
    · have h := (List.mem_filter.mp hl).2
      simp [hpk] at h
    · simpa [ChannelRow.save] using List.mem_singleton.mp hrr
  · intro r hr hpk
    rcases List.mem_append.mp hr with hl | hrr
    · exact List.mem_of_mem_filter hl
    · have h := List.mem_singleton.mp hrr
      rw [h] at hpk
      exact absurd rfl hpk

/-- Claim C6: deleting a Quiz removes the quiz row, all of its Questions,
all Answers belonging to those Questions, and every TakenQuiz row
referencing that Quiz. -/
theorem quiz_delete_cascade (db : DB) (qz : Nat) :
    (∀ z ∈ (deleteQuiz db qz).quizzes, z.pk ≠ qz) ∧
    (∀ q ∈ (deleteQuiz db qz).questions, q.quizId ≠ qz) ∧
    (∀ a ∈ (deleteQuiz db qz).answers, ∀ q ∈ db.questions,
      q.quizId = qz → a.questionId ≠ q.pk) ∧
    (∀ t ∈ (deleteQuiz db qz).takenQuizzes, t.quizId ≠ qz) := by
  refine ⟨?_, ?_, ?_, ?_⟩
  · intro z hz
    have h := (List.mem_filter.mp hz).2
    simpa using h
  · intro q hq
    have h := (List.mem_filter.mp hq).2
    simpa using h
  · intro a ha q hq hqz heq
    have h2 := (List.mem_filter.mp ha).2
    simp at h2
    exact h2 q hq hqz heq.symm
  · intro t ht
    have h := (List.mem_filter.mp ht).2
    simpa using h

/-- Claim C7: `MonthlySchedule.month` is globally unique across all
users: inserting a schedule whose month is already stored — for any user
and any year — is rejected with a uniqueness violation, and a successful
insert only appends the new row. -/
theorem monthly_schedule_month_unique (db : DB) (r : MonthlyScheduleRow) :
    ((∃ r0 ∈ db.monthlySchedules, r0.month = r.month) →
      insertMonthlySchedule db r = Except.error DbError.uniqueViolation) ∧
    (∀ db2, insertMonthlySchedule db r = Except.ok db2 →
      db2.monthlySchedules = db.monthlySchedules ++ [r]) := by
  constructor
  · rintro ⟨r0, hr0, hm⟩
    have h : db.monthlySchedules.any (fun x => x.month == r.month) = true :=
      List.any_eq_true.mpr ⟨r0, hr0, by simp [hm]⟩
    simp [insertMonthlySchedule, h]
  · intro db2 h
    unfold insertMonthlySchedule at h
    split at h
    · cases h
    · cases h
      rfl

/-- Witness for C7: inserting a March schedule into the empty store
succeeds; inserting a second March schedule (different user, different
year) is rejected while the first row is still the whole stored list. -/
theorem monthly_schedule_month_unique_witness :
    insertMonthlySchedule emptyDB exSchedMarchA
      = Except.ok { emptyDB with monthlySchedules := [exSchedMarchA] } ∧
    insertMonthlySchedule { emptyDB with monthlySchedules := [exSchedMarchA] }
        exSchedMarchB
      = Except.error DbError.uniqueViolation :=
  ⟨rfl, (monthly_schedule_month_unique
      { emptyDB with monthlySchedules := [exSchedMarchA] } exSchedMarchB).1
    ⟨exSchedMarchA, by simp, by decide⟩⟩

/-- Claim C8: creating a MonthlySchedule without an explicit year stamps
the injected clock's current calendar year at the instant of creation; an
explicit year is kept as given. -/
theorem monthly_schedule_default_year (now : DateTime) (pk : Nat)
    (month : Int) (days : Int) (userId : Nat) :
    (mkMonthlySchedule now pk month days userId none).year
      = get_current_year now ∧
    (mkMonthlySchedule now pk month days userId none).year = now.year ∧
    (∀ y, (mkMonthlySchedule now pk month days userId (some y)).year = y) :=
  ⟨rfl, rfl, fun _ => rfl⟩

/-- Claim C9: a `StudentAnswer` row with a null answer reference never
marks a question as answered: prepending such a row, or dropping every
such row, leaves `get_unanswered_questions` unchanged for every student
and quiz. -/
theorem null_student_answer_no_effect (db : DB) (sa : StudentAnswerRow)
    (s qz : Nat) :
    get_unanswered_questions
        { db with studentAnswers :=
            { sa with answerId := none } :: db.studentAnswers } s qz
      = get_unanswered_questions db s qz ∧
    get_unanswered_questions
        { db with studentAnswers :=
            db.studentAnswers.filter (fun r => r.answerId.isSome) } s qz
      = get_unanswered_questions db s qz := by
  constructor
  · refine get_unanswered_congr _ _ _ _ rfl ?_
    rw [answeredQuestionPks_set, List.filter_cons]
    have hc : answerContribution db qz { sa with answerId := none } = none := rfl
    split
    · rw [List.filterMap_cons_none hc]
      rfl
    · rfl
  · refine get_unanswered_congr _ _ _ _ rfl ?_
    rw [answeredQuestionPks_set]
    exact filterMap_contrib_filter_isSome db qz s db.studentAnswers

/-- Claim C10: deleting an Answer cascades to delete every
`StudentAnswer` row referencing it (the rows are removed, never set to
null), other `StudentAnswer` rows survive, referential integrity of the
surviving rows is preserved, and a question all of whose recorded
answers by a student went through the deleted answer reappears in that
student's unanswered questions for the question's quiz. -/
theorem answer_delete_cascade (db : DB) (apk : Nat) :
    (∀ sa ∈ (deleteAnswer db apk).studentAnswers,
      sa.answerId ≠ some apk) ∧
    (∀ sa ∈ db.studentAnswers, sa.answerId ≠ some apk →
      sa ∈ (deleteAnswer db apk).studentAnswers) ∧
    ((∀ sa ∈ db.studentAnswers, ∀ aid, sa.answerId = some aid →
        ∃ a ∈ db.answers, a.pk = aid) →
      ∀ sa ∈ (deleteAnswer db apk).studentAnswers, ∀ aid,
        sa.answerId = some aid →
          ∃ a ∈ (deleteAnswer db apk).answers, a.pk = aid) ∧
    (∀ s, ∀ qn ∈ db.questions,
      (∀ sa ∈ db.studentAnswers, sa.studentId = s → ∀ aid,
        sa.answerId = some aid → ∀ a ∈ db.answers, a.pk = aid →
          a.questionId = qn.pk → aid = apk) →
      qn ∈ get_unanswered_questions (deleteAnswer db apk) s qn.quizId) := by
  refine ⟨?_, ?_, ?_, ?_⟩
  · intro sa hsa
    have h := (List.mem_filter.mp hsa).2
    simpa using h
  · intro sa hsa hne
    exact List.mem_filter.mpr ⟨hsa, by simpa using hne⟩
  · intro hint sa hsa aid haid
    have hmem : sa ∈ db.studentAnswers := List.mem_of_mem_filter hsa
    have hne : sa.answerId ≠ some apk := by
      have h := (List.mem_filter.mp hsa).2
      simpa using h
    rcases hint sa hmem aid haid with ⟨a, hamem, hapk⟩
    have hne2 : a.pk ≠ apk := by
      rw [hapk]
      intro hcon
      exact hne (by rw [haid, hcon])
    exact ⟨a, List.mem_filter.mpr ⟨hamem, by simpa using hne2⟩, hapk⟩
  · intro s qn hqn honly
    refine mem_get_unanswered.mpr ⟨hqn, rfl, ?_⟩
    intro hin
    rcases mem_answeredQuestionPks.mp hin with ⟨sa, hsa, hsid, hc⟩
    rcases answerContribution_eq_some.mp hc with
      ⟨aid, haid, a, hfa, q2, hfq, hq2z, hq2p⟩
    have hsamem : sa ∈ db.studentAnswers := List.mem_of_mem_filter hsa
    have hsane : sa.answerId ≠ some apk := by
      have h := (List.mem_filter.mp hsa).2
      simpa using h
    have hamem : a ∈ db.answers :=
      List.mem_of_mem_filter (List.mem_of_find?_eq_some hfa)
    have hapk : a.pk = aid := by
      have h := List.find?_some hfa
      simpa using h
    have haq : a.questionId = qn.pk := by
      have h := List.find?_some hfq
      simp only [beq_iff_eq] at h
      rw [← h, hq2p]
    have : aid = apk := honly sa hsamem hsid aid haid a hamem hapk haq
    exact hsane (by rw [haid, this])

end ClassDeck
